import Mathlib

/-!
# Verification of the resume-parser scoring pipeline

A shallow embedding of the decision core of the resume-parser repository:
the resume validator (`models/resume_validator.py`), the experience part of
the feature extractor (`preprocessing/feature_extractor.py`), the company
matcher (`models/company_matcher.py`), the recommendation engine's overall
score (`models/recommendation_engine.py`) and the learned-model inference
fallbacks (`models/ml_inference.py`).

Python strings are embedded as `List Char`; machine floats are embedded as
`ℚ` (all quantities involved are small decimal fractions, where float
arithmetic is exact for the claims at stake; `round(x, n)` tie-breaking is
the only divergence and none of the proved statements depends on a tie).
Python regular-expression *search* (truthiness of `re.search`) is embedded
by a small nondeterministic matching engine: a pattern maps a state
(previous character, remaining input) to the list of states after every
possible match, and a search succeeds when some start position yields a
non-empty state list.  This matches Python's backtracking existence
semantics for the (star-height-free) patterns used by the repository.
-/

namespace ResumeParser

/-! ## Character classes (Python `re` semantics, ASCII range) -/

/-- Python `\s`: the six ASCII whitespace characters. -/
def isSpaceChar (c : Char) : Bool :=
  c = ' ' ∨ c = '\t' ∨ c = '\n' ∨ c = '\r' ∨ c = '\x0b' ∨ c = '\x0c'

/-- Python `\w` (ASCII range): letters, digits, underscore. -/
def isWordChar (c : Char) : Bool :=
  c.isAlphanum ∨ c = '_'

/-- Python `str.lower` on the ASCII range (all repository vocabularies are
ASCII; non-ASCII characters are left unchanged, as `Char.toLower` does). -/
def lowerStr (s : List Char) : List Char :=
  s.map Char.toLower

/-- Python substring containment `needle in hay`. -/
def containsSub (needle hay : List Char) : Bool :=
  hay.tails.any (fun t => needle.isPrefixOf t)

/-- Python `len(text.split())`: number of maximal non-whitespace runs. -/
def wordCountAux : List Char → Bool → ℕ
  | [], _ => 0
  | c :: r, inw =>
      if isSpaceChar c then wordCountAux r false
      else (if inw then 0 else 1) + wordCountAux r true

def wordCount (s : List Char) : ℕ := wordCountAux s false

/-! ## A small nondeterministic regex engine

A `MState` is the previous character (`none` at the start of the input)
together with the remaining input.  A `Pat` sends a state to the states
reachable after consuming some match of the pattern.  `reSearch` decides
`re.search(pattern, text) is not None`. -/

abbrev MState := Option Char × List Char

abbrev Pat := MState → List MState

/-- The empty pattern (matches nothing, consuming no input). -/
def pEps : Pat := fun s => [s]

/-- A single character from a class. -/
def pCls (f : Char → Bool) : Pat := fun s =>
  match s with
  | (_, []) => []
  | (_, c :: rest) => if f c then [(some c, rest)] else []

/-- Sequencing of two patterns. -/
def pSeq (p q : Pat) : Pat := fun s => (p s).flatMap q

/-- Alternation of two patterns (existence semantics: order irrelevant). -/
def pAlt (p q : Pat) : Pat := fun s => p s ++ q s

/-- An optional pattern (`?`). -/
def pOpt (p : Pat) : Pat := fun s => s :: p s

/-- At most `n` repetitions of `p` (all intermediate states kept). -/
def pRep (p : Pat) : ℕ → Pat
  | 0 => pEps
  | n + 1 => fun s => s :: (p s).flatMap (pRep p n)

/-- Exactly `n` repetitions of `p`. -/
def pExact (p : Pat) : ℕ → Pat
  | 0 => pEps
  | n + 1 => pSeq p (pExact p n)

/-- Between `m` and `m + k` repetitions of `p`. -/
def pRange (p : Pat) (m k : ℕ) : Pat := pSeq (pExact p m) (pRep p k)

/-- A literal string. -/
def pLit (w : List Char) : Pat :=
  w.foldr (fun c q => pSeq (pCls (fun d => d = c)) q) pEps

/-- Python `\b`: a word/non-word boundary between the previous character and
the head of the remaining input (the edges of the text count as non-word). -/
def pWB : Pat := fun s =>
  match s with
  | (prev, cs) =>
      let before := match prev with | none => false | some c => isWordChar c
      let after := match cs with | [] => false | c :: _ => isWordChar c
      if before ≠ after then [s] else []

/-- Does `pat` match starting exactly at the state's position? -/
def pMatches (pat : Pat) (s : MState) : Bool := !(pat s).isEmpty

def searchFrom (pat : Pat) : Option Char → List Char → Bool
  | prev, [] => pMatches pat (prev, [])
  | prev, c :: rest =>
      pMatches pat (prev, c :: rest) || searchFrom pat (some c) rest

/-- `re.search(pattern, text)` truthiness. -/
def reSearch (pat : Pat) (text : List Char) : Bool :=
  searchFrom pat none text

/-- Alternation over a list of patterns. -/
def pAlts (ps : List Pat) : Pat := fun s => ps.flatMap (fun p => p s)

/-- One or more repetitions, bounded by the input length `n`. -/
def pPlus (f : Char → Bool) (n : ℕ) : Pat := pSeq (pCls f) (pRep (pCls f) n)

/-- `\s*`, bounded by the input length `n`. -/
def pStarSpace (n : ℕ) : Pat := pRep (pCls isSpaceChar) n

def isDigitChar (c : Char) : Bool := c.isDigit

/-! ## Resume validator — `models/resume_validator.py`

`ResumeValidator.resume_sections` and `ResumeValidator.resume_indicators`,
lines 10–25, and the two validation entry points `validate_resume`
(lines 27–97, modelled on the already-extracted text: `PDFParser.extract_text`
is the excluded text-extraction collaborator) and `validate_text`
(lines 99–120). -/

def resumeSections : List (List Char) :=
  (["experience", "education", "skills", "work experience",
    "employment", "qualification", "projects", "internship",
    "objective", "summary", "achievements", "certifications"] :
      List String).map String.toList

/-- Indicator 1: `\b(email|e-mail)\b`. -/
def indPat1 : Pat :=
  pSeq pWB (pSeq (pAlt (pLit "email".toList) (pLit "e-mail".toList)) pWB)

/-- Indicator 2: `\b(phone|mobile|contact)\b`. -/
def indPat2 : Pat :=
  pSeq pWB (pSeq (pAlts [pLit "phone".toList, pLit "mobile".toList,
    pLit "contact".toList]) pWB)

/-- Indicator 3: `\b(linkedin|github)\b`. -/
def indPat3 : Pat :=
  pSeq pWB (pSeq (pAlt (pLit "linkedin".toList) (pLit "github".toList)) pWB)

/-- The class `[A-Za-z0-9._%+-]` of the literal e-mail pattern. -/
def emailLocalCls (c : Char) : Bool :=
  c.isAlphanum ∨ c = '.' ∨ c = '_' ∨ c = '%' ∨ c = '+' ∨ c = '-'

/-- The class `[A-Za-z0-9.-]` of the literal e-mail pattern. -/
def emailDomCls (c : Char) : Bool :=
  c.isAlphanum ∨ c = '.' ∨ c = '-'

/-- The class `[A-Z|a-z]` of the literal e-mail pattern (the `|` inside the
class is a literal bar character in the source pattern). -/
def emailTldCls (c : Char) : Bool :=
  c.isAlpha ∨ c = '|'

/-- Indicator 4 (also `PDFParser.extract_contact_info`'s e-mail pattern):
`\b[A-Za-z0-9._%+-]+@[A-Za-z0-9.-]+\.[A-Z|a-z]{2,}\b`. -/
def emailPat (n : ℕ) : Pat :=
  pSeq pWB (pSeq (pPlus emailLocalCls n)
    (pSeq (pCls (fun c => c = '@'))
      (pSeq (pPlus emailDomCls n)
        (pSeq (pCls (fun c => c = '.'))
          (pSeq (pSeq (pExact (pCls emailTldCls) 2) (pRep (pCls emailTldCls) n))
            pWB)))))

/-- Indicator 5: `\b(bachelor|master|phd|b\.tech|m\.tech|mba)\b`. -/
def indPat5 : Pat :=
  pSeq pWB (pSeq (pAlts [pLit "bachelor".toList, pLit "master".toList,
    pLit "phd".toList, pLit "b.tech".toList, pLit "m.tech".toList,
    pLit "mba".toList]) pWB)

def monthNames : List (List Char) :=
  (["january", "february", "march", "april", "may", "june", "july",
    "august", "september", "october", "november", "december"] :
      List String).map String.toList

/-- Indicator 6: `\b(january|…|december)\s+\d{4}\b`. -/
def indPat6 (n : ℕ) : Pat :=
  pSeq pWB (pSeq (pAlts (monthNames.map pLit))
    (pSeq (pPlus isSpaceChar n) (pSeq (pExact (pCls isDigitChar) 4) pWB)))

/-- The character class of indicator 7.  In the source file the en dash of
the intended `[-–]` class appears as the mojibake byte sequence for
`â`, `€`, `“`; the class therefore consists of exactly these four
characters. -/
def dashMojiCls (c : Char) : Bool :=
  c = '-' ∨ c = 'â' ∨ c = '€' ∨ c = '“'

/-- Indicator 7: `\b(19|20)\d{2}\s*[-â€“]\s*(19|20)\d{2}|present\b` — a
top-level alternation between a year range and the bare word ending
`present\b`. -/
def indPat7 (n : ℕ) : Pat :=
  pAlt
    (pSeq pWB (pSeq (pAlt (pLit "19".toList) (pLit "20".toList))
      (pSeq (pExact (pCls isDigitChar) 2)
        (pSeq (pStarSpace n) (pSeq (pCls dashMojiCls)
          (pSeq (pStarSpace n) (pSeq (pAlt (pLit "19".toList) (pLit "20".toList))
            (pExact (pCls isDigitChar) 2))))))))
    (pSeq (pLit "present".toList) pWB)

def indicatorPats (n : ℕ) : List Pat :=
  [indPat1, indPat2, indPat3, emailPat n, indPat5, indPat6 n, indPat7 n]

/-- `sections_found` of both validators: how many entries of
`resume_sections` occur as substrings of the lowercased text. -/
def sectionsFound (text : List Char) : ℕ :=
  resumeSections.countP (fun sec => containsSub sec (lowerStr text))

/-- `found_section_names` of `validate_resume` (the matched section names in
vocabulary order). -/
def foundSectionNames (text : List Char) : List (List Char) :=
  resumeSections.filter (fun sec => containsSub sec (lowerStr text))

/-- `indicators_found`: how many of the seven indicator patterns have a
match in the lowercased text. -/
def indicatorsFound (text : List Char) : ℕ :=
  (indicatorPats text.length).countP (fun p => reSearch p (lowerStr text))

/-! ### Contact extraction — `preprocessing/pdf_parser.py`, lines 44–78.

Only the truthiness of each field matters to the validator
(`has_contact = any(contact_info.values())`), so each field is embedded as
the Boolean existence of a match. -/

/-- Phone separator class `[-\s\.]`. -/
def phoneSepCls (c : Char) : Bool :=
  c = '-' ∨ isSpaceChar c ∨ c = '.'

/-- `[\+]?[(]?[0-9]{1,4}[)]?[-\s\.]?[(]?[0-9]{1,4}[)]?[-\s\.]?[0-9]{1,5}[-\s\.]?[0-9]{1,5}` -/
def phonePat : Pat :=
  pSeq (pOpt (pCls (fun c => c = '+')))
    (pSeq (pOpt (pCls (fun c => c = '(')))
      (pSeq (pRange (pCls isDigitChar) 1 3)
        (pSeq (pOpt (pCls (fun c => c = ')')))
          (pSeq (pOpt (pCls phoneSepCls))
            (pSeq (pOpt (pCls (fun c => c = '(')))
              (pSeq (pRange (pCls isDigitChar) 1 3)
                (pSeq (pOpt (pCls (fun c => c = ')')))
                  (pSeq (pOpt (pCls phoneSepCls))
                    (pSeq (pRange (pCls isDigitChar) 1 4)
                      (pSeq (pOpt (pCls phoneSepCls))
                        (pRange (pCls isDigitChar) 1 4)))))))))))

/-- `linkedin\.com/in/[\w-]+` (searched on the lowercased text). -/
def linkedinPat (n : ℕ) : Pat :=
  pSeq (pLit "linkedin.com/in/".toList)
    (pPlus (fun c => isWordChar c ∨ c = '-') n)

/-- `github\.com/[\w-]+` (searched on the lowercased text). -/
def githubPat (n : ℕ) : Pat :=
  pSeq (pLit "github.com/".toList) (pPlus (fun c => isWordChar c ∨ c = '-') n)

def emailFound (text : List Char) : Bool := reSearch (emailPat text.length) text

def phoneFound (text : List Char) : Bool := reSearch phonePat text

def linkedinFound (text : List Char) : Bool :=
  reSearch (linkedinPat text.length) (lowerStr text)

def githubFound (text : List Char) : Bool :=
  reSearch (githubPat text.length) (lowerStr text)

/-- `any(contact_info.values())` after `PDFParser.extract_contact_info`. -/
def hasContactInfo (text : List Char) : Bool :=
  emailFound text || phoneFound text || linkedinFound text || githubFound text

/-! ## Rounding

Python's `round(x, d)` on the exact rational values arising here; Python's
banker's tie-breaking and `round` here (`⌊x + 1/2⌋`) differ only on exact
half-ulp ties, and no statement below depends on a tie. -/

/-- Rounding to the nearest integer, half away from zero on the positive
half-line (`⌊x + 1/2⌋`). -/
def roundPy (x : ℚ) : ℤ := ⌊x + 1/2⌋

/-- `round(x, 1)`. -/
def round1 (x : ℚ) : ℚ := (roundPy (x * 10) : ℚ) / 10

/-- `round(x, 2)`. -/
def round2 (x : ℚ) : ℚ := (roundPy (x * 100) : ℚ) / 100

/-! ### The validator entry points -/

/-- The result dictionary of `ResumeValidator.validate_text`; the short-text
branch omits the `sections_found`/`indicators_found` keys and the long
branch omits `reason`, embedded as `Option` fields. -/
structure VTResult where
  is_valid : Bool
  confidence : ℚ
  sections_found : Option ℕ
  indicators_found : Option ℕ
  reason : Option String
  /-- `validate_text` never emits a `suggestions` key in either branch
  (unlike `validate_resume`); the field is kept so that statements about
  the presence of suggestions are expressible, and is constantly `none`. -/
  suggestions : Option (List String)
  deriving Repr, DecidableEq

/-- The shared confidence formula (lines 60–62 and 112):
`min(sections/3, 1)*0.6 + min(indicators/4, 1)*0.4`. -/
def confidenceOf (s i : ℕ) : ℚ :=
  min ((s : ℚ) / 3) 1 * 0.6 + min ((i : ℚ) / 4) 1 * 0.4

/-- `ResumeValidator.validate_text` (lines 99–120).  The guard
`not text or len(text) < 200` is equivalent to `len(text) < 200` since the
empty string has length 0. -/
def validateText (text : List Char) : VTResult :=
  if text.length < 200 then
    { is_valid := false, confidence := 0, sections_found := none,
      indicators_found := none, reason := some "Text is too short",
      suggestions := none }
  else
    let s := sectionsFound text
    let i := indicatorsFound text
    { is_valid := decide (2 ≤ s ∧ 3 ≤ i),
      confidence := round2 (confidenceOf s i),
      sections_found := some s, indicators_found := some i, reason := none,
      suggestions := none }

/-- The result dictionary of `ResumeValidator.validate_resume`, past the
excluded PDF-text extraction (so keyed on the extracted text).  The
`contact_details` values are the matched substrings; only their truthiness
is retained, mirroring `any(contact_info.values())`. -/
structure RVResult where
  is_valid : Bool
  confidence : ℚ
  sections_found : Option (List (List Char))
  has_contact_info : Option Bool
  text_length : Option ℕ
  word_count : Option ℕ
  reason : Option String
  suggestions : Option (List String)
  deriving Repr, DecidableEq

/-- The conditionally assembled suggestion list of lines 85–95 (order:
sections, contact, indicators). -/
def rvSuggestions (s : ℕ) (hasContact : Bool) (i : ℕ) : List String :=
  (if s < 2 then
    ["Add standard resume sections like Education, Experience, Skills"]
   else []) ++
  (if hasContact then [] else
    ["Include contact information (email, phone)"]) ++
  (if i < 3 then
    ["Structure document with dates, job titles, and qualifications"]
   else [])

/-- `ResumeValidator.validate_resume` (lines 27–97) applied to the text the
excluded `PDFParser.extract_text` collaborator produced. -/
def validateResumeText (text : List Char) : RVResult :=
  if text.length < 200 then
    { is_valid := false, confidence := 0, sections_found := none,
      has_contact_info := none, text_length := none, word_count := none,
      reason := some "Document is too short or text extraction failed",
      suggestions := some ["Please upload a PDF with readable text",
        "Ensure the resume is at least one page"] }
  else
    let s := sectionsFound text
    let i := indicatorsFound text
    let hasContact := hasContactInfo text
    let valid := decide (2 ≤ s ∧ 3 ≤ i ∧ hasContact = true)
    { is_valid := valid,
      confidence := round2 (confidenceOf s i),
      sections_found := some (foundSectionNames text),
      has_contact_info := some hasContact,
      text_length := some text.length,
      word_count := some (wordCount text),
      reason := if valid then none else
        some "Document does not appear to be a valid resume",
      suggestions := if valid then none else
        some (rvSuggestions s hasContact i) }

/-! ## Feature extractor, experience part —
`preprocessing/feature_extractor.py`, `extract_experience`, lines 40–60.

`re.findall` over `(20\d{2}|19\d{2})\s*[-–]\s*(20\d{2}|19\d{2}|present|current)`
is embedded by a deterministic scanner: the alternatives of each group have
pairwise distinct first characters and the `\s*` gaps are followed by
non-space tokens, so Python's backtracking search is equivalent to maximal
munch with first-alternative choice, scanning left to right and resuming
after each match (`re.findall` returns non-overlapping matches).
`extract_all_features` (line 117) stores the result as
`experience.total_years` of the FeatureRecord. -/

inductive EndToken where
  | year (y : ℕ)
  | present
  | current
  deriving Repr, DecidableEq

def digitVal (c : Char) : ℕ := c.toNat - '0'.toNat

/-- Group `(20\d{2}|19\d{2})`. -/
def parseStartYear : List Char → Option (ℕ × List Char)
  | '2' :: '0' :: a :: b :: rest =>
      if a.isDigit ∧ b.isDigit then
        some (2000 + 10 * digitVal a + digitVal b, rest)
      else none
  | '1' :: '9' :: a :: b :: rest =>
      if a.isDigit ∧ b.isDigit then
        some (1900 + 10 * digitVal a + digitVal b, rest)
      else none
  | _ => none

/-- Group `(20\d{2}|19\d{2}|present|current)`. -/
def parseEndTok : List Char → Option (EndToken × List Char)
  | '2' :: '0' :: a :: b :: rest =>
      if a.isDigit ∧ b.isDigit then
        some (.year (2000 + 10 * digitVal a + digitVal b), rest)
      else none
  | '1' :: '9' :: a :: b :: rest =>
      if a.isDigit ∧ b.isDigit then
        some (.year (1900 + 10 * digitVal a + digitVal b), rest)
      else none
  | 'p' :: 'r' :: 'e' :: 's' :: 'e' :: 'n' :: 't' :: rest => some (.present, rest)
  | 'c' :: 'u' :: 'r' :: 'r' :: 'e' :: 'n' :: 't' :: rest => some (.current, rest)
  | _ => none

/-- The extractor's dash class `[-–]` (a true en dash here, unlike the
validator's mojibake class). -/
def dashEnCls (c : Char) : Bool := c = '-' ∨ c = '–'

/-- One attempted match of the year-range pattern at the current position. -/
def matchYearRangeAt (cs : List Char) : Option ((ℕ × EndToken) × List Char) :=
  match parseStartYear cs with
  | none => none
  | some (sy, r1) =>
      match r1.dropWhile isSpaceChar with
      | [] => none
      | c :: r3 =>
          if dashEnCls c then
            match parseEndTok (r3.dropWhile isSpaceChar) with
            | some (e, rest) => some ((sy, e), rest)
            | none => none
          else none

/-- The `re.findall` scan (fuel = input length suffices, every step consumes
at least one character). -/
def findYearRanges : ℕ → List Char → List (ℕ × EndToken)
  | 0, _ => []
  | _, [] => []
  | fuel + 1, cs =>
      match matchYearRangeAt cs with
      | some (m, after) => m :: findYearRanges fuel after
      | none => findYearRanges fuel cs.tail

/-- All `(start, end)` groups matched in the lowercased text. -/
def yearRanges (text : List Char) : List (ℕ × EndToken) :=
  findYearRanges text.length (lowerStr text)

/-- The fixed current-year constant of line 55. -/
def presentYearConstant : ℤ := 2025

/-- `end_year = 2025 if 'present' in end or 'current' in end else int(end)`. -/
def resolveEndYear : EndToken → ℤ
  | .year y => (y : ℤ)
  | .present => presentYearConstant
  | .current => presentYearConstant

/-- `total_months` of lines 51–58 (the `try`/`except` never fires: both
groups are all-digit years or the fixed keywords). -/
def totalMonths (text : List Char) : ℤ :=
  ((yearRanges text).map (fun m => (resolveEndYear m.2 - (m.1 : ℤ)) * 12)).sum

/-- `experience['total_years'] = round(total_months / 12, 1)` (line 60). -/
def extractTotalYears (text : List Char) : ℚ :=
  round1 ((totalMonths text : ℚ) / 12)

/-! ## Data model records -/

/-- The FeatureRecord produced by `extract_all_features` (positions come from
the external spaCy sentence segmenter and are carried as opaque data). -/
structure FeatureRecord where
  skills : List String
  total_years : ℚ
  positions : List String
  highest_level : ℕ
  text_length : ℕ
  word_count : ℕ
  deriving Repr, DecidableEq

/-- A company profile as loaded from `company_profiles.json`
(`models/company_matcher.py`, lines 52–59). -/
structure CompanyProfile where
  company_name : String
  job_count : ℕ
  description_text : String
  avg_experience_required : ℚ
  min_experience : ℚ
  max_experience : ℚ
  deriving Repr, DecidableEq

/-- The result dictionary of `calculate_placement_probability`; the
company-not-found branch has empty `factors`, a `message` and none of the
remaining keys. -/
structure MatchResult where
  company : String
  probability : ℚ
  factors : List (String × ℚ)
  message : Option String
  required_experience : Option ℚ
  candidate_experience : Option ℚ
  confidence : Option String
  deriving Repr, DecidableEq

/-! ## Company matcher — `models/company_matcher.py`

`calculate_match_score` (lines 69–92) runs scikit-learn TF-IDF
vectorization plus cosine similarity over the two-document corpus; it is
external numeric library code and is threaded through as an oracle
`sim : String → ℚ` (per company name).  Spec §4.3: it "yields a value in
[0,1]" and returns 0.0 on empty input or failure; theorems that need the
range take it as a hypothesis.  The profile store is a JSON object, i.e. an
insertion-ordered mapping, embedded as an association list. -/

abbrev ProfileMap := List (String × CompanyProfile)

/-- The experience step function, lines 114–121 (an ordered `if`/`elif`
chain, first match wins). -/
def experienceScore (resumeExp requiredExp : ℚ) : ℚ :=
  if requiredExp ≤ resumeExp then 1
  else if requiredExp * 0.7 ≤ resumeExp then 0.8
  else if requiredExp * 0.5 ≤ resumeExp then 0.6
  else 0.3

/-- Education factor, line 125: `min(education_level / 5.0, 1.0)`. -/
def educationScore (lvl : ℕ) : ℚ := min ((lvl : ℚ) / 5) 1

/-- Completeness factor, lines 128–132. -/
def completenessScore (skillCount textLength : ℕ) : ℚ :=
  min (((skillCount : ℚ) / 10) * 0.5 + min ((textLength : ℚ) / 2000) 1 * 0.5) 1

/-- `calculate_placement_probability` (lines 94–157), with the TF-IDF
similarity for the company supplied by the oracle `sim`. -/
def calculatePlacementProbability (sim : String → ℚ) (profiles : ProfileMap)
    (fr : FeatureRecord) (companyName : String) : MatchResult :=
  match profiles.lookup companyName with
  | none =>
      { company := companyName, probability := 0, factors := [],
        message := some "Company profile not found",
        required_experience := none, candidate_experience := none,
        confidence := none }
  | some cp =>
      let skillsScore := sim companyName
      let expScore := experienceScore fr.total_years cp.avg_experience_required
      let eduScore := educationScore fr.highest_level
      let compScore := completenessScore fr.skills.length fr.text_length
      let finalProbability :=
        skillsScore * 0.4 + expScore * 0.3 + eduScore * 0.2 + compScore * 0.1
      let percentage := round1 (finalProbability * 100)
      { company := companyName, probability := percentage,
        factors := [("skills_match", round1 (skillsScore * 100)),
          ("experience_match", round1 (expScore * 100)),
          ("education_match", round1 (eduScore * 100)),
          ("completeness", round1 (compScore * 100))],
        message := none,
        required_experience := some cp.avg_experience_required,
        candidate_experience := some fr.total_years,
        confidence := some (if 70 < percentage then "high"
          else if 40 < percentage then "medium" else "low") }

/-- The descending-probability order used by `results.sort(key=…,
reverse=True)`. -/
def probGe (a b : MatchResult) : Prop := b.probability ≤ a.probability

instance : DecidableRel probGe := fun a b =>
  inferInstanceAs (Decidable (b.probability ≤ a.probability))

instance : IsTotal MatchResult probGe :=
  ⟨fun a b => le_total b.probability a.probability⟩

instance : IsTrans MatchResult probGe :=
  ⟨fun _ _ _ h h2 => le_trans h2 h⟩

/-- `get_all_company_matches` (lines 159–170).  Python's `list.sort` with
`reverse=True` is a stable descending sort; a stable sort's output is
uniquely determined by the key order and the input order, and
`List.insertionSort probGe` is that stable sort (earlier elements are
inserted on top of the sorted tail and stop before the first element with
no greater key). -/
def getAllCompanyMatches (sim : String → ℚ) (profiles : ProfileMap)
    (fr : FeatureRecord) : List MatchResult :=
  ((profiles.map (fun p => calculatePlacementProbability sim profiles fr p.1))).insertionSort
    probGe

/-! ## Recommendation engine — `models/recommendation_engine.py`,
`analyze_resume`, lines 15–41 (the overall score). -/

/-- `overall_score`, lines 33–41: four weighted components, the skills and
education components uncapped individually, the sum capped at 100, rounded
to one decimal. -/
def overallScore (fr : FeatureRecord) : ℚ :=
  round1 (min (((fr.skills.length : ℚ) / 15) * 30 +
      min (fr.total_years / 5) 1 * 30 +
      ((fr.highest_level : ℚ) / 5) * 20 +
      min ((fr.word_count : ℚ) / 800) 1 * 20) 100)

/-! ## Learned-model inference — `models/ml_inference.py`

`load_models` (lines 15–35) loads four pickled artifacts in one `try`
block; on any failure it sets the classifier, the placement predictor and
the skill recommender to `None`, so each is embedded as an `Option`.  The
learned models themselves (scikit-learn estimators) are opaque numeric
functions and appear as function-valued fields; the telemetry calls
(`performance_tracker.track_ml_prediction`) are the excluded side channel.
-/

/-- The flat numeric feature dictionary consumed by the ML methods
(`features.get(key, 0)` — absent keys default to 0, so a total record). -/
structure MLFeatures where
  skill_count : ℚ
  experience_years : ℚ
  education_level : ℚ
  word_count : ℚ
  text_length : ℚ
  has_projects : ℚ
  has_certifications : ℚ
  deriving Repr, DecidableEq

/-- The classifier plus label-encoder pair, as opaque learned functions. -/
structure QualityClassifier where
  predictLabel : List ℚ → String
  predictProbs : List ℚ → List ℚ
  classes : List String

/-- The result dictionary of `predict_resume_quality`; the degraded branch
has no `probabilities` key. -/
structure QualityResult where
  quality : String
  confidence : ℚ
  probabilities : Option (List (String × ℚ))

/-- Feature vector of lines 45–53. -/
def qualityFeatureVector (f : MLFeatures) : List ℚ :=
  [f.skill_count, f.experience_years, f.education_level, f.word_count,
   f.text_length, f.has_projects, f.has_certifications]

/-- `predict_resume_quality` (lines 37–77). -/
def predictResumeQuality (clf : Option QualityClassifier) (f : MLFeatures) :
    QualityResult :=
  match clf with
  | none => { quality := "Unknown", confidence := 0, probabilities := none }
  | some c =>
      let fv := qualityFeatureVector f
      let probs := c.predictProbs fv
      { quality := c.predictLabel fv,
        confidence := probs.foldr max 0,
        probabilities := some (c.classes.zip probs) }

/-- Feature vector of lines 87–95. -/
def placementFeatureVector (f : MLFeatures) (companyExpRequired : ℚ) :
    List ℚ :=
  [f.skill_count, f.experience_years, f.education_level, f.word_count / 1000,
   companyExpRequired, f.has_projects, f.has_certifications]

/-- `predict_placement_probability` (lines 79–110); `np.clip(p, 0, 100)`. -/
def predictPlacementProbability (predictor : Option (List ℚ → ℚ))
    (f : MLFeatures) (companyExpRequired : ℚ) : ℚ :=
  match predictor with
  | none => 0
  | some p => min (max (p (placementFeatureVector f companyExpRequired)) 0) 100

/-- The pickled skill-recommender artifact: a skill list and the square
co-occurrence matrix (`train_models.py` builds the list as
`list(set(…))` of lowercase vocabulary entries, hence duplicate-free). -/
structure SkillRecommender where
  skills : List (List Char)
  matrix : List (List ℚ)

/-- The inner loop of lines 120–127: the first index whose entry matches the
held skill case-insensitively (`s.lower() == skill.lower()`), if any. -/
def firstIndexLower (skillList : List (List Char)) (skill : List Char) :
    Option ℕ :=
  skillList.findIdx? (fun s => lowerStr s == lowerStr skill)

/-- `current_indices` (one entry per held skill that occurs in the list;
duplicates among held skills are kept, as in the source loop). -/
def currentIndices (skillList currentSkills : List (List Char)) : List ℕ :=
  currentSkills.filterMap (firstIndexLower skillList)

/-- Matrix entry with numpy's dense shape (out-of-range reads cannot occur
for well-shaped artifacts; `0` elsewhere). -/
def matEntry (matrix : List (List ℚ)) (i j : ℕ) : ℚ :=
  (matrix.getD i []).getD j 0

/-- `scores[i]` after the accumulation loop of lines 133–135. -/
def baseScore (r : SkillRecommender) (cur : List (List Char)) (i : ℕ) : ℚ :=
  ((currentIndices r.skills cur).map (fun idx => matEntry r.matrix idx i)).sum

/-- `scores[i]` after the zeroing loop of lines 138–139. -/
def recScore (r : SkillRecommender) (cur : List (List Char)) (i : ℕ) : ℚ :=
  if i ∈ currentIndices r.skills cur then 0 else baseScore r cur i

/-- `np.argsort(scores)`: numpy's default sort applied to the score array;
below numpy's small-array cutoff its introsort runs a stable insertion
sort, and a stable ascending argsort is the unique permutation of the
indices ordered lexicographically by (score, index).  (For larger arrays
numpy documents the tie order as unspecified.) -/
def argsortAsc (r : SkillRecommender) (cur : List (List Char)) : List ℕ :=
  (List.range r.skills.length).insertionSort
    (fun i j => recScore r cur i ≤ recScore r cur j)

/-- `top_indices = np.argsort(scores)[::-1][:top_n]` (line 142). -/
def topIndices (r : SkillRecommender) (cur : List (List Char)) (topN : ℕ) :
    List ℕ :=
  (argsortAsc r cur).reverse.take topN

/-- The indices surviving the `scores[i] > 0` filter of line 143. -/
def selectedIndices (r : SkillRecommender) (cur : List (List Char)) (topN : ℕ) :
    List ℕ :=
  (topIndices r cur topN).filter (fun i => 0 < recScore r cur i)

/-- `recommend_skills` on a loaded artifact (lines 117–145). -/
def recommendSkillsLoaded (r : SkillRecommender) (cur : List (List Char))
    (topN : ℕ) : List (List Char) :=
  if currentIndices r.skills cur = [] then []
  else (selectedIndices r cur topN).map (fun i => r.skills.getD i [])

/-- `recommend_skills` (lines 112–145), including the degraded branch. -/
def recommendSkills (st : Option SkillRecommender) (cur : List (List Char))
    (topN : ℕ) : List (List Char) :=
  match st with
  | none => []
  | some r => recommendSkillsLoaded r cur topN

/-! ## Spec-side order for the skill recommendation ranking -/

/-- Index `i` strictly precedes index `j` in the recommendation ranking:
larger score first, ties by larger index (the reversal of the stable
ascending argsort). -/
def scoreIdxGt (r : SkillRecommender) (cur : List (List Char)) (i j : ℕ) :
    Prop :=
  recScore r cur j < recScore r cur i ∨
    (recScore r cur i = recScore r cur j ∧ j < i)

/-! ## Concrete instances used by witnesses and counterexamples -/

/-- 219 characters, six section names, four indicator matches (`email`,
`phone`, `linkedin`/`github`, `bachelor`/`master`), but no actual contact
details: no `@`, no digits (the phone pattern needs at least four digits),
no `linkedin.com/in/`, no `github.com/`. -/
def noContactText : List Char :=
  ("experience education skills summary objective email phone linkedin " ++
   "github bachelor master worked with teams to build tools and lead " ++
   "projects while learning new things every single day in a busy office " ++
   "downtown with care").toList

/-- 228 characters, six section names, an actual e-mail address (hence
contact info), three indicator matches. -/
def withContactText : List Char :=
  ("experience education skills summary objective contact me at " ++
   "john@example.com bachelor master worked with teams to build tools " ++
   "and lead projects while learning new things every single day in a " ++
   "busy office downtown with extra care").toList

/-- An unordered year range: the naive summation yields −36 months. -/
def unorderedRangeText : List Char := "employment 2023 - 2020 acme".toList

/-- An ordered year range worth 24 months. -/
def orderedRangeText : List Char := "employment 2019 - 2021 acme".toList

def frW : FeatureRecord :=
  { skills := ["python", "sql"], total_years := 2, positions := [],
    highest_level := 3, text_length := 1000, word_count := 400 }

def cpW : CompanyProfile :=
  { company_name := "acme", job_count := 3,
    description_text := "python developer", avg_experience_required := 2,
    min_experience := 0, max_experience := 5 }

/-- Holding `a` gives `b` and `c` the same positive score 1. -/
def rTie : SkillRecommender :=
  { skills := [['a'], ['b'], ['c']], matrix := [[0, 1, 1], [1, 0, 0], [1, 0, 0]] }

/-- Holding `a` leaves every score zero, so fewer than `top_n` results. -/
def rShort : SkillRecommender := { skills := [['a']], matrix := [[0]] }

/-! ## Helper lemmas -/

theorem roundPy_intCast (k : ℤ) : roundPy (k : ℚ) = k := by
  rw [roundPy]
  refine Int.floor_eq_iff.mpr ⟨by linarith, by linarith⟩

theorem round1_intCast (k : ℤ) : round1 (k : ℚ) = k := by
  have h : roundPy ((k : ℚ) * 10) = 10 * k := by
    rw [roundPy]
    refine Int.floor_eq_iff.mpr ⟨by push_cast; linarith, by push_cast; linarith⟩
  rw [round1, h]
  push_cast
  ring

theorem round1_nonneg {x : ℚ} (h : 0 ≤ x) : 0 ≤ round1 x := by
  rw [round1, roundPy]
  have h0 : (0 : ℤ) ≤ ⌊x * 10 + 1 / 2⌋ := Int.floor_nonneg.mpr (by linarith)
  have h1 : (0 : ℚ) ≤ (⌊x * 10 + 1 / 2⌋ : ℚ) := by exact_mod_cast h0
  linarith

theorem round1_le_hundred {x : ℚ} (h : x ≤ 100) : round1 x ≤ 100 := by
  rw [round1, roundPy]
  have h0 : ⌊x * 10 + 1 / 2⌋ < 1001 := Int.floor_lt.mpr (by push_cast; linarith)
  have h1 : (⌊x * 10 + 1 / 2⌋ : ℚ) ≤ 1000 := by
    exact_mod_cast Int.lt_add_one_iff.mp h0
  linarith

theorem experienceScore_cases (c r : ℚ) :
    experienceScore c r = 1 ∨ experienceScore c r = 0.8 ∨
      experienceScore c r = 0.6 ∨ experienceScore c r = 0.3 := by
  rw [experienceScore]
  split
  · exact Or.inl rfl
  split
  · exact Or.inr (Or.inl rfl)
  split
  · exact Or.inr (Or.inr (Or.inl rfl))
  · exact Or.inr (Or.inr (Or.inr rfl))

theorem experienceScore_bounds (c r : ℚ) :
    0 ≤ experienceScore c r ∧ experienceScore c r ≤ 1 := by
  rcases experienceScore_cases c r with h | h | h | h <;> rw [h] <;>
    exact ⟨by norm_num, by norm_num⟩

/-! ## C9 — learned-model degradation -/

/-- C9: when the model artifacts fail to load (all three references set to
`None` by `load_models`), the quality classifier returns the label
`Unknown` with confidence 0.0 and no class probabilities, the placement
predictor returns 0.0, and the skill recommender returns the empty list —
none of them fails. -/
theorem ml_degrades_gracefully_on_missing_artifacts (f : MLFeatures)
    (req : ℚ) (cur : List (List Char)) (topN : ℕ) :
    predictResumeQuality none f =
        { quality := "Unknown", confidence := 0, probabilities := none } ∧
      predictPlacementProbability none f req = 0 ∧
      recommendSkills none cur topN = [] :=
  ⟨rfl, rfl, rfl⟩

/-! ## C8 — unknown company -/

theorem lookup_eq_none_of_forall_ne {β : Type} (name : String)
    (l : List (String × β)) (h : ∀ p ∈ l, p.1 ≠ name) :
    l.lookup name = none := by
  induction l with
  | nil => rfl
  | cons p t ih =>
      have hne : p.1 ≠ name := h p (List.mem_cons_self p t)
      have hbeq : (name == p.1) = false := by
        exact beq_false_of_ne (fun e => hne e.symm)
      simp only [List.lookup, hbeq]
      exact ih (fun q hq => h q (List.mem_cons_of_mem p hq))

/-- C8: for every similarity oracle, profile mapping, FeatureRecord and
company name absent from the mapping, `calculate_placement_probability`
returns probability 0.0, empty factors and the explanatory message
`Company profile not found` (and, being a total function, never raises). -/
theorem unknown_company_yields_zero_probability (sim : String → ℚ)
    (profiles : ProfileMap) (fr : FeatureRecord) (name : String)
    (habsent : ∀ p ∈ profiles, p.1 ≠ name) :
    calculatePlacementProbability sim profiles fr name =
      { company := name, probability := 0, factors := [],
        message := some "Company profile not found",
        required_experience := none, candidate_experience := none,
        confidence := none } := by
  rw [calculatePlacementProbability, lookup_eq_none_of_forall_ne name profiles habsent]

/-- Witness for C8 at a concrete mapping and a name not in it. -/
theorem unknown_company_yields_zero_probability_witness :
    (∀ p ∈ [("acme", cpW)], p.1 ≠ "initech") ∧
      (calculatePlacementProbability (fun _ => 0) [("acme", cpW)] frW
          "initech").probability = 0 := by
  refine ⟨by decide, ?_⟩
  rw [unknown_company_yields_zero_probability (fun _ => 0) [("acme", cpW)] frW
    "initech" (by decide)]

/-! ## C7 — short-text rejection (corrected) -/

/-- C7 counterexample: at the concrete input `""` (shorter than 200
characters), `validate_text` returns no suggestions at all — its result
carries only `is_valid`, `reason` and `confidence` — contradicting the
claim that suggestions to upload readable/longer content accompany the
rejection. -/
theorem short_text_no_suggestions_counterexample :
    validateText [] =
      { is_valid := false, confidence := 0, sections_found := none,
        indicators_found := none, reason := some "Text is too short",
        suggestions := none } :=
  rfl

/-- C7 (amended): for every text shorter than 200 characters (the empty
text included), `validate_text` returns `is_valid = false`, confidence 0.0
and the reason `Text is too short`, with no suggestions; the suggestions to
upload readable/longer content are produced by the PDF-path
`validate_resume` short branch, which also rejects with confidence 0.0.
Both are total functions (no exception). -/
theorem short_text_rejected (t : List Char) (h : t.length < 200) :
    validateText t =
        { is_valid := false, confidence := 0, sections_found := none,
          indicators_found := none, reason := some "Text is too short",
          suggestions := none } ∧
      (validateResumeText t).is_valid = false ∧
      (validateResumeText t).confidence = 0 ∧
      (validateResumeText t).reason =
        some "Document is too short or text extraction failed" ∧
      (validateResumeText t).suggestions =
        some ["Please upload a PDF with readable text",
          "Ensure the resume is at least one page"] := by
  rw [validateText, validateResumeText]
  rw [if_pos h, if_pos h]
  exact ⟨rfl, rfl, rfl, rfl, rfl⟩

/-- Witness for C7 at the empty text. -/
theorem short_text_rejected_witness :
    ([] : List Char).length < 200 ∧
      (validateText []).is_valid = false ∧ (validateText []).confidence = 0 :=
  ⟨by decide, ((short_text_rejected [] (by decide)).1 ▸ rfl : _),
    ((short_text_rejected [] (by decide)).1 ▸ rfl : _)⟩

/-! ## C4 — experience step function (corrected) -/

/-- C4 counterexample: at `required = 0` (attainable: the profile builder
averages regex-extracted year counts, so a posting saying `0 years` gives
`avg_experience_required = 0`), a candidate with exactly `0.5 × required`
experience, i.e. 0 years, takes the first branch: the factor is 1.0, not
0.6. -/
theorem experience_step_half_boundary_counterexample :
    experienceScore (0.5 * 0) 0 = 1 ∧ (1 : ℚ) ≠ 0.6 := by
  constructor
  · rw [experienceScore, if_pos (by norm_num)]
  · norm_num

/-- C4 (amended): the experience-match factor is the ordered
first-match-wins chain — 1.0 when `required ≤ candidate`, else 0.8 when
`0.7 × required ≤ candidate`, else 0.6 when `0.5 × required ≤ candidate`,
else 0.3 — and at candidate exactly `0.5 × required` the factor is 0.6
whenever `required > 0`; when `required = 0` the first branch already fires
at that point and the factor is 1.0. -/
theorem experience_step_function (c r : ℚ) :
    (r ≤ c → experienceScore c r = 1) ∧
      (¬ r ≤ c → r * 0.7 ≤ c → experienceScore c r = 0.8) ∧
      (¬ r ≤ c → ¬ r * 0.7 ≤ c → r * 0.5 ≤ c → experienceScore c r = 0.6) ∧
      (¬ r ≤ c → ¬ r * 0.7 ≤ c → ¬ r * 0.5 ≤ c → experienceScore c r = 0.3) ∧
      (0 < r → experienceScore (r * 0.5) r = 0.6) ∧
      (r = 0 → experienceScore (r * 0.5) r = 1) := by
  refine ⟨?_, ?_, ?_, ?_, ?_, ?_⟩
  · intro h1; rw [experienceScore, if_pos h1]
  · intro h1 h2; rw [experienceScore, if_neg h1, if_pos h2]
  · intro h1 h2 h3; rw [experienceScore, if_neg h1, if_neg h2, if_pos h3]
  · intro h1 h2 h3; rw [experienceScore, if_neg h1, if_neg h2, if_neg h3]
  · intro hr
    rw [experienceScore, if_neg (by nlinarith), if_neg (by nlinarith),
      if_pos (by nlinarith)]
  · intro hr
    rw [experienceScore, if_pos (by nlinarith)]

/-- Witness for C4 at candidate 1, required 2 (the half boundary). -/
theorem experience_step_function_witness :
    (0 : ℚ) < 2 ∧ experienceScore (2 * 0.5) 2 = 0.6 :=
  ⟨by norm_num, (experience_step_function (2 * 0.5) 2).2.2.2.2.1 (by norm_num)⟩

/-! ## C1 — the validity gate (corrected) -/

set_option maxRecDepth 1000000 in
/-- C1 counterexample: a concrete 219-character text with six section names
and four indicator matches but no contact information.  `validate_text`
declares it valid, so for this validator entry point `is_valid` is not
equivalent to the three-way gate (`sections ≥ 2 ∧ indicators ≥ 3 ∧
has_contact_info`): the contact conjunct is absent from `validate_text`. -/
theorem validity_gate_counterexample :
    (validateText noContactText).is_valid = true ∧
      hasContactInfo noContactText = false := by
  exact ⟨by decide, by decide⟩

/-- C1 (amended): for every text of length at least 200, the PDF-path
validator `validate_resume` satisfies the claimed three-way gate —
`is_valid = true ↔ sections_found ≥ 2 ∧ indicators_found ≥ 3 ∧
has_contact_info` — and, `is_valid` being equivalent to a condition on the
two counters and the contact flag alone, it is computed independently of
the continuous confidence score.  The text-only entry point
`validate_text`, however, uses only the two-way gate `sections_found ≥ 2 ∧
indicators_found ≥ 3`, without the contact condition. -/
theorem validity_gate (t : List Char) (h : 200 ≤ t.length) :
    ((validateResumeText t).is_valid = true ↔
        2 ≤ sectionsFound t ∧ 3 ≤ indicatorsFound t ∧
          hasContactInfo t = true) ∧
      ((validateText t).is_valid = true ↔
        2 ≤ sectionsFound t ∧ 3 ≤ indicatorsFound t) := by
  have hn : ¬ t.length < 200 := not_lt.mpr h
  constructor
  · rw [validateResumeText, if_neg hn]
    simp only [decide_eq_true_eq]
  · rw [validateText, if_neg hn]
    simp only [decide_eq_true_eq]

set_option maxRecDepth 1000000 in
/-- Witness for C1 at a concrete valid resume text (228 characters, with an
e-mail address). -/
theorem validity_gate_witness :
    200 ≤ withContactText.length ∧
      ((validateResumeText withContactText).is_valid = true ↔
        2 ≤ sectionsFound withContactText ∧
          3 ≤ indicatorsFound withContactText ∧
          hasContactInfo withContactText = true) :=
  ⟨by decide, (validity_gate withContactText (by decide)).1⟩

/-! ## C2 — total experience years (corrected) -/

theorem totalMonths_eq_twelve_mul (t : List Char) :
    totalMonths t =
      12 * ((yearRanges t).map
        (fun m => resolveEndYear m.2 - (m.1 : ℤ))).sum := by
  rw [totalMonths]
  induction (yearRanges t) with
  | nil => simp
  | cons a l ih =>
      simp only [List.map_cons, List.sum_cons, ih]
      ring

/-- C2 (amended): for every input text, the `total_years` field computed by
`extract_experience` equals the naive sum of `(end_year − start_year)` over
all matched `YYYY-YYYY|present|current` ranges — in months, divided by 12
and rounded to one decimal, with `present`/`current` mapped to the fixed
current-year constant 2025 — and this value is non-negative whenever every
matched range is ordered (`start ≤ end`); for unordered ranges the naive
summation makes it negative, so unconditional non-negativity fails. -/
theorem total_years_naive_sum (t : List Char) :
    extractTotalYears t =
        (((yearRanges t).map
          (fun m => resolveEndYear m.2 - (m.1 : ℤ))).sum : ℚ) ∧
      ((∀ m ∈ yearRanges t, (m.1 : ℤ) ≤ resolveEndYear m.2) →
        0 ≤ extractTotalYears t) := by
  have h1 : extractTotalYears t =
      (((yearRanges t).map
        (fun m => resolveEndYear m.2 - (m.1 : ℤ))).sum : ℚ) := by
    rw [extractTotalYears, totalMonths_eq_twelve_mul]
    have h12 : ((12 * ((yearRanges t).map
        (fun m => resolveEndYear m.2 - (m.1 : ℤ))).sum : ℤ) : ℚ) / 12 =
        ((((yearRanges t).map
          (fun m => resolveEndYear m.2 - (m.1 : ℤ))).sum : ℤ) : ℚ) := by
      push_cast
      ring
    rw [h12, round1_intCast]
  refine ⟨h1, fun hord => ?_⟩
  rw [h1]
  have hsum : (0 : ℤ) ≤ ((yearRanges t).map
      (fun m => resolveEndYear m.2 - (m.1 : ℤ))).sum := by
    apply List.sum_nonneg
    intro x hx
    obtain ⟨m, hm, hmx⟩ := List.mem_map.mp hx
    rw [← hmx]
    exact sub_nonneg.mpr (hord m hm)
  exact_mod_cast hsum

/-- C2 counterexample: the concrete text `employment 2023 - 2020 acme`
contains the single matched range (2023, 2020); the naive summation gives
−36 months, i.e. `total_years = −3.0`, which is negative. -/
theorem total_years_negative_counterexample :
    extractTotalYears unorderedRangeText = -3 ∧
      ¬ 0 ≤ extractTotalYears unorderedRangeText := by
  have hm : totalMonths unorderedRangeText = -36 := by decide
  have h3 : extractTotalYears unorderedRangeText = -3 := by
    have : extractTotalYears unorderedRangeText =
        round1 (((-36 : ℤ) : ℚ) / 12) := by
      rw [extractTotalYears, hm]
    rw [this]
    have he : ((-36 : ℤ) : ℚ) / 12 = ((-3 : ℤ) : ℚ) := by norm_num
    rw [he, round1_intCast]
    norm_num
  exact ⟨h3, by rw [h3]; norm_num⟩

/-- Witness for C2 at a concrete ordered range (2019 – 2021: 2.0 years). -/
theorem total_years_naive_sum_witness :
    (∀ m ∈ yearRanges orderedRangeText, (m.1 : ℤ) ≤ resolveEndYear m.2) ∧
      0 ≤ extractTotalYears orderedRangeText :=
  ⟨by decide, (total_years_naive_sum orderedRangeText).2 (by decide)⟩

/-! ## C3 — score ranges -/

theorem educationScore_bounds (l : ℕ) :
    0 ≤ educationScore l ∧ educationScore l ≤ 1 :=
  ⟨le_min (by positivity) zero_le_one, min_le_right _ _⟩

theorem completenessScore_bounds (a b : ℕ) :
    0 ≤ completenessScore a b ∧ completenessScore a b ≤ 1 := by
  refine ⟨le_min ?_ zero_le_one, min_le_right _ _⟩
  have h1 : (0 : ℚ) ≤ ((a : ℚ) / 10) * 0.5 := by positivity
  have h2 : (0 : ℚ) ≤ min ((b : ℚ) / 2000) 1 * 0.5 :=
    mul_nonneg (le_min (by positivity) zero_le_one) (by norm_num)
  linarith

theorem probability_of_known_company {sim : String → ℚ}
    {profiles : ProfileMap} {fr : FeatureRecord} {name : String}
    {cp : CompanyProfile} (h : profiles.lookup name = some cp) :
    (calculatePlacementProbability sim profiles fr name).probability =
      round1 ((sim name * 0.4 +
        experienceScore fr.total_years cp.avg_experience_required * 0.3 +
        educationScore fr.highest_level * 0.2 +
        completenessScore fr.skills.length fr.text_length * 0.1) * 100) := by
  rw [calculatePlacementProbability, h]

/-- C3: for every FeatureRecord (whose `total_years` is non-negative, per
the data-model invariant) the Recommendation Engine's `overall_score` lies
in [0, 100], and for every similarity value in [0, 1] (spec §4.3: the
TF-IDF cosine similarity yields a value in [0, 1]) every
`MatchResult.probability` computed by the Company Matcher lies in
[0, 100]. -/
theorem scores_within_bounds (fr : FeatureRecord) (sim : String → ℚ)
    (profiles : ProfileMap) (name : String) (hty : 0 ≤ fr.total_years)
    (hsim0 : 0 ≤ sim name) (hsim1 : sim name ≤ 1) :
    (0 ≤ overallScore fr ∧ overallScore fr ≤ 100) ∧
      0 ≤ (calculatePlacementProbability sim profiles fr name).probability ∧
      (calculatePlacementProbability sim profiles fr name).probability ≤ 100 := by
  constructor
  · rw [overallScore]
    have h1 : (0 : ℚ) ≤ ((fr.skills.length : ℚ) / 15) * 30 := by positivity
    have h2 : (0 : ℚ) ≤ min (fr.total_years / 5) 1 * 30 :=
      mul_nonneg (le_min (by positivity) zero_le_one) (by norm_num)
    have h3 : (0 : ℚ) ≤ ((fr.highest_level : ℚ) / 5) * 20 := by positivity
    have h4 : (0 : ℚ) ≤ min ((fr.word_count : ℚ) / 800) 1 * 20 :=
      mul_nonneg (le_min (by positivity) zero_le_one) (by norm_num)
    constructor
    · exact round1_nonneg (le_min (by linarith) (by norm_num))
    · exact round1_le_hundred (min_le_right _ _)
  · cases hcp : profiles.lookup name with
    | none =>
        rw [calculatePlacementProbability, hcp]
        exact ⟨le_refl 0, by norm_num⟩
    | some cp =>
        rw [probability_of_known_company hcp]
        obtain ⟨he0, he1⟩ :=
          experienceScore_bounds fr.total_years cp.avg_experience_required
        obtain ⟨hd0, hd1⟩ := educationScore_bounds fr.highest_level
        obtain ⟨hc0, hc1⟩ :=
          completenessScore_bounds fr.skills.length fr.text_length
        constructor
        · exact round1_nonneg (by nlinarith)
        · exact round1_le_hundred (by nlinarith)

/-- Witness for C3 at a concrete FeatureRecord, profile mapping and
similarity oracle. -/
theorem scores_within_bounds_witness :
    (0 ≤ frW.total_years ∧ 0 ≤ (0 : ℚ) ∧ (0 : ℚ) ≤ 1) ∧
      (0 ≤ overallScore frW ∧ overallScore frW ≤ 100) ∧
      0 ≤ (calculatePlacementProbability (fun _ => 0) [("acme", cpW)] frW
          "acme").probability ∧
      (calculatePlacementProbability (fun _ => 0) [("acme", cpW)] frW
          "acme").probability ≤ 100 :=
  ⟨⟨by norm_num [frW], by norm_num, by norm_num⟩,
    scores_within_bounds frW (fun _ => 0) [("acme", cpW)] "acme"
      (by norm_num [frW]) (by norm_num) (by norm_num)⟩

/-! ## C5 — ranking order and stability

`list.sort(key=…, reverse=True)` is a stable descending sort; its output is
characterised by (a) being sorted non-increasingly by the key and (b) the
sub-sequence at each key value being the input's sub-sequence at that
value.  Both are proved of the embedding. -/

theorem filter_orderedInsert_prob_eq (p : ℚ) (a : MatchResult)
    (l : List MatchResult) (ha : a.probability = p) :
    (List.orderedInsert probGe a l).filter
        (fun m => decide (m.probability = p)) =
      a :: l.filter (fun m => decide (m.probability = p)) := by
  induction l with
  | nil => simp [List.orderedInsert, ha]
  | cons b t ih =>
      by_cases hr : probGe a b
      · rw [List.orderedInsert, if_pos hr,
          List.filter_cons_of_pos (by simp [ha])]
      · have hb : b.probability ≠ p := by
          intro e
          exact hr (by rw [probGe, ha, e])
        rw [List.orderedInsert, if_neg hr,
          List.filter_cons_of_neg (by simp [hb]),
          List.filter_cons_of_neg (by simp [hb]), ih]

theorem filter_orderedInsert_prob_ne (p : ℚ) (a : MatchResult)
    (l : List MatchResult) (ha : a.probability ≠ p) :
    (List.orderedInsert probGe a l).filter
        (fun m => decide (m.probability = p)) =
      l.filter (fun m => decide (m.probability = p)) := by
  induction l with
  | nil => simp [List.orderedInsert, ha]
  | cons b t ih =>
      by_cases hr : probGe a b
      · rw [List.orderedInsert, if_pos hr,
          List.filter_cons_of_neg (by simp [ha])]
      · by_cases hb : b.probability = p
        · rw [List.orderedInsert, if_neg hr,
            List.filter_cons_of_pos (by simp [hb]),
            List.filter_cons_of_pos (by simp [hb]), ih]
        · rw [List.orderedInsert, if_neg hr,
            List.filter_cons_of_neg (by simp [hb]),
            List.filter_cons_of_neg (by simp [hb]), ih]

theorem filter_insertionSort_prob (p : ℚ) (l : List MatchResult) :
    (List.insertionSort probGe l).filter
        (fun m => decide (m.probability = p)) =
      l.filter (fun m => decide (m.probability = p)) := by
  induction l with
  | nil => rfl
  | cons a t ih =>
      rw [List.insertionSort]
      by_cases ha : a.probability = p
      · rw [filter_orderedInsert_prob_eq p a _ ha, ih,
          List.filter_cons_of_pos (by simp [ha])]
      · rw [filter_orderedInsert_prob_ne p a _ ha, ih,
          List.filter_cons_of_neg (by simp [ha])]

/-- C5: for every company-profile mapping, every FeatureRecord (and every
similarity oracle), `get_all_company_matches` returns a sequence sorted
non-increasingly by probability, and at every probability value `p` the
sub-sequence of entries with that probability equals, in order, that of
the per-company results taken in the original mapping iteration order: the
sort is stable, ties keep the profile-map order. -/
theorem all_matches_ranking (sim : String → ℚ) (profiles : ProfileMap)
    (fr : FeatureRecord) :
    (getAllCompanyMatches sim profiles fr).Sorted probGe ∧
      ∀ p : ℚ,
        (getAllCompanyMatches sim profiles fr).filter
            (fun m => decide (m.probability = p)) =
          (profiles.map
              (fun pr => calculatePlacementProbability sim profiles fr pr.1)).filter
            (fun m => decide (m.probability = p)) := by
  constructor
  · exact List.sorted_insertionSort probGe _
  · intro p
    exact filter_insertionSort_prob p _

/-! ## C6 — skill recommendation ranking (corrected)

A stable ascending argsort of pairwise-distinct indices is exactly the
enumeration of the indices in increasing lexicographic `(score, index)`
order; its reversal, which the code takes, is therefore ordered by larger
score first and, among equal scores, larger index first. -/

theorem pairwise_lex_orderedInsert (key : ℕ → ℚ) (a : ℕ) (l : List ℕ)
    (hl : l.Pairwise (fun i j => key i < key j ∨ (key i = key j ∧ i < j)))
    (hal : ∀ b ∈ l, a < b) :
    (List.orderedInsert (fun i j => key i ≤ key j) a l).Pairwise
      (fun i j => key i < key j ∨ (key i = key j ∧ i < j)) := by
  induction l with
  | nil => simp
  | cons b t ih =>
      rw [List.orderedInsert]
      by_cases hr : key a ≤ key b
      · rw [if_pos hr]
        refine List.pairwise_cons.mpr ⟨?_, hl⟩
        intro x hx
        have hax : key a ≤ key x := by
          rcases List.mem_cons.mp hx with he | ht
          · rw [he]; exact hr
          · rcases (List.pairwise_cons.mp hl).1 x ht with hlt | ⟨he, _⟩
            · exact le_trans hr (le_of_lt hlt)
            · exact le_trans hr (le_of_eq he)
        rcases lt_or_eq_of_le hax with hlt | he
        · exact Or.inl hlt
        · exact Or.inr ⟨he, hal x hx⟩
      · rw [if_neg hr]
        have hba : key b < key a := lt_of_not_le hr
        refine List.pairwise_cons.mpr ⟨?_, ?_⟩
        · intro x hx
          rcases (List.mem_orderedInsert _).mp hx with he | ht
          · rw [he]; exact Or.inl hba
          · exact (List.pairwise_cons.mp hl).1 x ht
        · exact ih (List.pairwise_cons.mp hl).2
            (fun b hb => hal b (List.mem_cons_of_mem _ hb))

theorem pairwise_lex_insertionSort (key : ℕ → ℚ) (l : List ℕ)
    (hl : l.Pairwise (· < ·)) :
    (l.insertionSort (fun i j => key i ≤ key j)).Pairwise
      (fun i j => key i < key j ∨ (key i = key j ∧ i < j)) := by
  induction l with
  | nil => simp
  | cons a t ih =>
      rw [List.insertionSort]
      refine pairwise_lex_orderedInsert key a _
        (ih (List.pairwise_cons.mp hl).2) ?_
      intro b hb
      exact (List.pairwise_cons.mp hl).1 b
        ((List.mem_insertionSort _).mp hb)

theorem argsortAsc_pairwise (r : SkillRecommender) (cur : List (List Char)) :
    (argsortAsc r cur).Pairwise
      (fun i j => recScore r cur i < recScore r cur j ∨
        (recScore r cur i = recScore r cur j ∧ i < j)) :=
  pairwise_lex_insertionSort _ _ (List.pairwise_lt_range _)

theorem argsortDesc_pairwise (r : SkillRecommender) (cur : List (List Char)) :
    ((argsortAsc r cur).reverse).Pairwise (scoreIdxGt r cur) := by
  refine (List.pairwise_reverse.mpr ?_)
  refine (argsortAsc_pairwise r cur).imp ?_
  intro i j h
  rcases h with hlt | ⟨he, hij⟩
  · exact Or.inl hlt
  · exact Or.inr ⟨he.symm, hij⟩

theorem mem_argsortAsc {r : SkillRecommender} {cur : List (List Char)}
    {i : ℕ} : i ∈ argsortAsc r cur ↔ i < r.skills.length := by
  rw [argsortAsc, List.mem_insertionSort, List.mem_range]

theorem length_argsortAsc (r : SkillRecommender) (cur : List (List Char)) :
    (argsortAsc r cur).length = r.skills.length := by
  rw [argsortAsc, (List.perm_insertionSort _ _).length_eq, List.length_range]

/-- C6 (amended): for every loaded co-occurrence artifact, held-skill list
and `top_n`, the recommender returns the skills at the selected indices,
where the selected indices (i) are ranked strictly decreasingly in the
lexicographic order `larger summed co-occurrence score first, ties between
equal scores broken by the larger index` — not the lower index: the code
reverses a (stable) ascending argsort — (ii) all carry strictly positive
scores with already-held matched skills zeroed out, (iii) number at most
`top_n`, and (iv) are complete: any unselected index with positive score
forces a full selection of `top_n` indices that all precede it in the
ranking order. -/
theorem skill_recommendation_ranking (r : SkillRecommender)
    (cur : List (List Char)) (topN : ℕ) :
    (recommendSkillsLoaded r cur topN =
        if currentIndices r.skills cur = [] then []
        else (selectedIndices r cur topN).map (fun i => r.skills.getD i [])) ∧
      (selectedIndices r cur topN).Pairwise (scoreIdxGt r cur) ∧
      (∀ i ∈ selectedIndices r cur topN, 0 < recScore r cur i) ∧
      (selectedIndices r cur topN).length ≤ topN ∧
      ∀ j, j < r.skills.length → 0 < recScore r cur j →
        j ∉ selectedIndices r cur topN →
        (selectedIndices r cur topN).length = topN ∧
          ∀ i ∈ selectedIndices r cur topN, scoreIdxGt r cur i j := by
  refine ⟨rfl, ?_, ?_, ?_, ?_⟩
  · refine List.Pairwise.sublist ?_ (argsortDesc_pairwise r cur)
    exact (List.filter_sublist _).trans (List.take_sublist _ _)
  · intro i hi
    have := (List.mem_filter.mp hi).2
    exact of_decide_eq_true this
  · exact le_trans (List.length_filter_le _ _) (List.length_take_le _ _)
  · intro j hj hpos hnot
    have hjD : j ∈ (argsortAsc r cur).reverse :=
      List.mem_reverse.mpr (mem_argsortAsc.mpr hj)
    have hsplit := List.take_append_drop topN ((argsortAsc r cur).reverse)
    have hDP := argsortDesc_pairwise r cur
    rw [← hsplit] at hDP
    obtain ⟨hPtake, hPdrop, hcross⟩ := List.pairwise_append.mp hDP
    have hjdrop : j ∈ ((argsortAsc r cur).reverse).drop topN := by
      rcases List.mem_append.mp (hsplit ▸ hjD) with htake | hdrop
      · exfalso
        exact hnot (List.mem_filter.mpr ⟨htake, decide_eq_true hpos⟩)
      · exact hdrop
    have hgt : ∀ i ∈ ((argsortAsc r cur).reverse).take topN,
        scoreIdxGt r cur i j := fun i hi => hcross i hi j hjdrop
    have hposall : ∀ i ∈ ((argsortAsc r cur).reverse).take topN,
        0 < recScore r cur i := by
      intro i hi
      rcases hgt i hi with hlt | ⟨he, _⟩
      · exact lt_trans hpos hlt
      · rw [he]; exact hpos
    have hfilter : selectedIndices r cur topN =
        ((argsortAsc r cur).reverse).take topN := by
      rw [selectedIndices, topIndices]
      exact List.filter_eq_self.mpr
        (fun i hi => decide_eq_true (hposall i hi))
    have hlen : (((argsortAsc r cur).reverse).take topN).length = topN := by
      rw [List.length_take, min_eq_left]
      by_contra hle
      push_neg at hle
      have : ((argsortAsc r cur).reverse).drop topN = [] :=
        List.drop_eq_nil_of_le (by omega)
      rw [this] at hjdrop
      exact absurd hjdrop (List.not_mem_nil j)
    refine ⟨by rw [hfilter, hlen], ?_⟩
    intro i hi
    exact hgt i (hfilter ▸ hi)

theorem rTie_currentIndices : currentIndices rTie.skills [['a']] = [0] := by
  decide

theorem rTie_recScore0 : recScore rTie [['a']] 0 = 0 := by
  rw [recScore, rTie_currentIndices, if_pos (by decide)]

theorem rTie_recScore1 : recScore rTie [['a']] 1 = 1 := by
  rw [recScore, rTie_currentIndices, if_neg (by decide), baseScore,
    rTie_currentIndices]
  simp only [List.map_cons, List.map_nil, List.sum_cons, List.sum_nil,
    add_zero]
  decide

theorem rTie_recScore2 : recScore rTie [['a']] 2 = 1 := by
  rw [recScore, rTie_currentIndices, if_neg (by decide), baseScore,
    rTie_currentIndices]
  simp only [List.map_cons, List.map_nil, List.sum_cons, List.sum_nil,
    add_zero]
  decide

theorem rTie_argsort : argsortAsc rTie [['a']] = [0, 1, 2] := by
  rw [argsortAsc, show List.range rTie.skills.length = [0, 1, 2] from by decide]
  simp only [List.insertionSort, List.orderedInsert, rTie_recScore0,
    rTie_recScore1, rTie_recScore2]
  norm_num

theorem rTie_selected2 : selectedIndices rTie [['a']] 2 = [2, 1] := by
  rw [selectedIndices, topIndices, rTie_argsort,
    show (([0, 1, 2] : List ℕ).reverse.take 2) = [2, 1] from by decide]
  refine List.filter_eq_self.mpr ?_
  intro a ha
  rcases List.mem_cons.mp ha with h2 | ha
  · subst h2
    exact decide_eq_true (by rw [rTie_recScore2]; norm_num)
  rcases List.mem_cons.mp ha with h1 | ha
  · subst h1
    exact decide_eq_true (by rw [rTie_recScore1]; norm_num)
  · exact absurd ha (List.not_mem_nil a)

theorem rTie_selected1 : selectedIndices rTie [['a']] 1 = [2] := by
  rw [selectedIndices, topIndices, rTie_argsort,
    show (([0, 1, 2] : List ℕ).reverse.take 1) = [2] from by decide]
  refine List.filter_eq_self.mpr ?_
  intro a ha
  rcases List.mem_cons.mp ha with h2 | ha
  · subst h2
    exact decide_eq_true (by rw [rTie_recScore2]; norm_num)
  · exact absurd ha (List.not_mem_nil a)

/-- C6 counterexample: holding skill `a` in the concrete artifact `rTie`
gives skills `b` (index 1) and `c` (index 2) the same positive score 1;
the recommender returns `[c, b]` — the tie is broken by the *larger*
index, not by the lowest index as claimed (which would give `[b, c]`). -/
theorem skill_tie_order_counterexample :
    recommendSkillsLoaded rTie [['a']] 2 = [['c'], ['b']] ∧
      ([['c'], ['b']] : List (List Char)) ≠ [['b'], ['c']] := by
  constructor
  · rw [recommendSkillsLoaded, if_neg (by decide), rTie_selected2]
    decide
  · decide

/-- Witness for C6: at the concrete artifact `rTie` with `top_n = 1`, index
1 has positive score yet is unselected, so the theorem's completeness
conjunct yields a full selection of one index ranked above it. -/
theorem skill_recommendation_ranking_witness :
    (1 < rTie.skills.length ∧ 0 < recScore rTie [['a']] 1 ∧
        1 ∉ selectedIndices rTie [['a']] 1) ∧
      (selectedIndices rTie [['a']] 1).length = 1 ∧
        ∀ i ∈ selectedIndices rTie [['a']] 1, scoreIdxGt rTie [['a']] i 1 := by
  have h1 : 1 < rTie.skills.length := by decide
  have h2 : 0 < recScore rTie [['a']] 1 := by rw [rTie_recScore1]; norm_num
  have h3 : 1 ∉ selectedIndices rTie [['a']] 1 := by
    rw [rTie_selected1]; decide
  exact ⟨⟨h1, h2, h3⟩,
    (skill_recommendation_ranking rTie [['a']] 1).2.2.2.2 1 h1 h2 h3⟩

/-! ## C10 — positivity and held-skill filtering of the recommender -/

theorem mem_topIndices_lt {r : SkillRecommender} {cur : List (List Char)}
    {topN i : ℕ} (h : i ∈ topIndices r cur topN) : i < r.skills.length :=
  mem_argsortAsc.mp (List.mem_reverse.mp (List.mem_of_mem_take h))

theorem mem_selectedIndices {r : SkillRecommender} {cur : List (List Char)}
    {topN i : ℕ} (h : i ∈ selectedIndices r cur topN) :
    i ∈ topIndices r cur topN ∧ 0 < recScore r cur i := by
  obtain ⟨h1, h2⟩ := List.mem_filter.mp h
  exact ⟨h1, of_decide_eq_true h2⟩

theorem not_mem_current_of_recScore_pos {r : SkillRecommender}
    {cur : List (List Char)} {i : ℕ} (h : 0 < recScore r cur i) :
    i ∉ currentIndices r.skills cur := by
  intro hmem
  rw [recScore, if_pos hmem] at h
  exact absurd h (lt_irrefl 0)

theorem getD_eq_getElem_of_lt {l : List (List Char)} {i : ℕ}
    (h : i < l.length) : l.getD i [] = l[i] := by
  rw [List.getD_eq_getElem?_getD, List.getElem?_eq_getElem h]
  rfl

theorem pred_of_findIdx_lt {α : Type} (p : α → Bool) (xs : List α)
    (w : xs.findIdx p < xs.length) :
    ∃ y, xs[xs.findIdx p]? = some y ∧ p y = true := by
  induction xs with
  | nil => simp at w
  | cons x t ih =>
      by_cases h : p x
      · have hfi : (x :: t).findIdx p = 0 := by
          rw [List.findIdx_cons, h, cond_true]
        rw [hfi]
        exact ⟨x, by rw [List.getElem?_cons_zero], h⟩
      · have hfi : (x :: t).findIdx p = t.findIdx p + 1 := by
          rw [List.findIdx_cons]
          simp [h]
        rw [hfi] at w ⊢
        have w' : t.findIdx p < t.length := by simpa using w
        obtain ⟨y, hy, hpy⟩ := ih w'
        exact ⟨y, by rw [List.getElem?_cons_succ]; exact hy, hpy⟩

/-- C10: (a) with a duplicate-free loaded skill list (as `train_models.py`
builds it, `list(set(…))` of lowercase vocabulary entries), the recommender
never returns a skill the candidate already holds (case-insensitively);
(b) every returned skill sits at an index of strictly positive summed
co-occurrence score, and at most `top_n` skills are returned; when no held
skill occurs in the artifact's skill list, the result is empty; and the
positivity filter can leave fewer than `top_n` entries, as the concrete
artifact `rShort` shows. -/
theorem skill_recommendation_filters :
    (∀ (r : SkillRecommender) (cur : List (List Char)) (topN : ℕ),
        (r.skills.map lowerStr).Nodup →
        ∀ s ∈ recommendSkillsLoaded r cur topN, ∀ c ∈ cur,
          lowerStr s ≠ lowerStr c) ∧
      (∀ (r : SkillRecommender) (cur : List (List Char)) (topN : ℕ),
        (∀ s ∈ recommendSkillsLoaded r cur topN, ∃ i, i < r.skills.length ∧
            r.skills.getD i [] = s ∧ 0 < recScore r cur i) ∧
          (recommendSkillsLoaded r cur topN).length ≤ topN ∧
          ((∀ c ∈ cur, ∀ sk ∈ r.skills, lowerStr sk ≠ lowerStr c) →
            recommendSkillsLoaded r cur topN = [])) ∧
      (recommendSkillsLoaded rShort [['a']] 5).length < 5 := by
  have hmem : ∀ (r : SkillRecommender) (cur : List (List Char)) (topN : ℕ),
      ∀ s ∈ recommendSkillsLoaded r cur topN, ∃ i, i < r.skills.length ∧
        r.skills.getD i [] = s ∧ 0 < recScore r cur i ∧
        i ∉ currentIndices r.skills cur := by
    intro r cur topN s hs
    rw [recommendSkillsLoaded] at hs
    by_cases hci : currentIndices r.skills cur = []
    · rw [if_pos hci] at hs
      exact absurd hs (List.not_mem_nil s)
    · rw [if_neg hci] at hs
      obtain ⟨i, hi, hgd⟩ := List.mem_map.mp hs
      obtain ⟨htop, hpos⟩ := mem_selectedIndices hi
      exact ⟨i, mem_topIndices_lt htop, hgd, hpos,
        not_mem_current_of_recScore_pos hpos⟩
  refine ⟨?_, ?_, ?_⟩
  · intro r cur topN hnd s hs c hc heq
    obtain ⟨i, hilt, hgd, _, hnotcur⟩ := hmem r cur topN s hs
    have hgi : r.skills.getD i [] = r.skills[i] := getD_eq_getElem_of_lt hilt
    have hpi : (lowerStr r.skills[i] == lowerStr c) = true :=
      beq_iff_eq.mpr (by rw [← hgi, hgd, heq])
    have hex : ∃ x ∈ r.skills,
        (fun sk => lowerStr sk == lowerStr c) x = true :=
      ⟨r.skills[i], List.getElem_mem hilt, hpi⟩
    have hsome : firstIndexLower r.skills c =
        some (r.skills.findIdx (fun sk => lowerStr sk == lowerStr c)) := by
      rw [firstIndexLower]
      exact List.findIdx?_eq_some_of_exists
        (by obtain ⟨x, hx1, hx2⟩ := hex; exact ⟨x, hx1, hx2⟩)
    have hi0lt : r.skills.findIdx (fun sk => lowerStr sk == lowerStr c) <
        r.skills.length := List.findIdx_lt_length_of_exists hex
    obtain ⟨y0, hy0, hpy0⟩ := pred_of_findIdx_lt
      (fun sk => lowerStr sk == lowerStr c) r.skills hi0lt
    have hy0eq : y0 =
        r.skills[r.skills.findIdx (fun sk => lowerStr sk == lowerStr c)] := by
      have h2 := List.getElem?_eq_getElem hi0lt
      rw [hy0] at h2
      exact Option.some.inj h2
    have hL : lowerStr
        (r.skills[r.skills.findIdx (fun sk => lowerStr sk == lowerStr c)]) =
        lowerStr c := by
      have h3 : lowerStr y0 = lowerStr c := beq_iff_eq.mp hpy0
      rw [hy0eq] at h3
      exact h3
    have hm1 : i < (r.skills.map lowerStr).length := by
      rw [List.length_map]; exact hilt
    have hm2 : r.skills.findIdx (fun sk => lowerStr sk == lowerStr c) <
        (r.skills.map lowerStr).length := by
      rw [List.length_map]; exact hi0lt
    have hv1 : (r.skills.map lowerStr).get ⟨i, hm1⟩ = lowerStr c := by
      rw [List.get_eq_getElem, List.getElem_map]
      exact beq_iff_eq.mp hpi
    have hv2 : (r.skills.map lowerStr).get ⟨r.skills.findIdx
        (fun sk => lowerStr sk == lowerStr c), hm2⟩ = lowerStr c := by
      rw [List.get_eq_getElem, List.getElem_map]
      exact hL
    have hfin : (⟨i, hm1⟩ : Fin (r.skills.map lowerStr).length) =
        ⟨r.skills.findIdx (fun sk => lowerStr sk == lowerStr c), hm2⟩ :=
      (hnd.get_inj_iff).mp (by rw [hv1, hv2])
    apply hnotcur
    rw [show i = r.skills.findIdx (fun sk => lowerStr sk == lowerStr c) from
      congrArg Fin.val hfin]
    exact List.mem_filterMap.mpr ⟨c, hc, hsome⟩
  · intro r cur topN
    refine ⟨?_, ?_, ?_⟩
    · intro s hs
      obtain ⟨i, h1, h2, h3, _⟩ := hmem r cur topN s hs
      exact ⟨i, h1, h2, h3⟩
    · rw [recommendSkillsLoaded]
      by_cases hci : currentIndices r.skills cur = []
      · rw [if_pos hci]
        exact Nat.zero_le _
      · rw [if_neg hci, List.length_map]
        exact le_trans (List.length_filter_le _ _) (List.length_take_le _ _)
    · intro habs
      rw [recommendSkillsLoaded, if_pos]
      rw [currentIndices, List.filterMap_eq_nil_iff]
      intro c hc
      rw [firstIndexLower, List.findIdx?_eq_none_iff]
      intro sk hsk
      exact beq_eq_false_iff_ne.mpr (habs c hc sk hsk)
  · decide

/-- Witness for C10 at concrete artifacts: the duplicate-free hypothesis on
`rShort`, and the no-held-skill hypothesis for a skill absent from it. -/
theorem skill_recommendation_filters_witness :
    ((rShort.skills.map lowerStr).Nodup ∧
        ∀ s ∈ recommendSkillsLoaded rShort [['a']] 5, ∀ c ∈ [[('a' : Char)]],
          lowerStr s ≠ lowerStr c) ∧
      ((∀ c ∈ [[('z' : Char)]], ∀ sk ∈ rShort.skills,
          lowerStr sk ≠ lowerStr c) ∧
        recommendSkillsLoaded rShort [['z']] 3 = []) :=
  ⟨⟨by decide, skill_recommendation_filters.1 rShort [['a']] 5 (by decide)⟩,
    ⟨by decide,
      (skill_recommendation_filters.2.1 rShort [['z']] 3).2.2 (by decide)⟩⟩

end ResumeParser
